import Mathlib

/-!
Shallow embedding of the evaluation engine of the repository
(`pipeline/scripts/eval_dataset.py`, `pipeline/scripts/eval_metrics.py`,
`pipeline/scripts/evaluate_model.py`) and proofs about it.

Conventions of the embedding:
* Python `float` metric arithmetic is modelled by exact rationals (`ℚ`);
  all quantities involved are small exact fractions.
* Python strings are Lean `String`s; character-level helpers work on
  `String.data` so that everything evaluates inside the kernel.
* Python's `random.Random(seed)` is modelled by a deterministic
  LCG-driven word stream; the evaluation code relies only on
  `shuffle` being a deterministic, seed-indexed permutation of its input.
-/

/-! ### Python string primitives shared by the loaders and the scorer -/

/-- ASCII whitespace recognised by Python's `str.strip`, `str.split` and `\s`. -/
def isPyWs (c : Char) : Bool :=
  c = ' ' || c = '\t' || c = '\n' || c = '\r' || c = '\x0b' || c = '\x0c'

/-- Characters kept by the normalisation regex `[^a-z0-9\s]` (after lowering). -/
def isLowerAlnum (c : Char) : Bool :=
  ('a' ≤ c && c ≤ 'z') || ('0' ≤ c && c ≤ '9')

/-- Python `str.lower()` (per-character, ASCII-faithful). -/
def pyLower (s : String) : String := ⟨s.data.map Char.toLower⟩

/-- Python `str.strip()`: drop leading and trailing whitespace. -/
def pyStrip (s : String) : String :=
  ⟨((s.data.dropWhile isPyWs).reverse.dropWhile isPyWs).reverse⟩

/-- Split a character list at every separator character (separators are
dropped; empty chunks between consecutive separators are kept). -/
def splitChunks (p : Char → Bool) (cs : List Char) : List (List Char) :=
  cs.foldr
    (fun c acc =>
      if p c then [] :: acc
      else
        match acc with
        | [] => [[c]]
        | h :: t => (c :: h) :: t)
    [[]]

/-- The nonempty chunks of `cs` between separator characters
(Python `str.split()` generalised to a separator predicate). -/
def wordsBy (p : Char → Bool) (cs : List Char) : List (List Char) :=
  (splitChunks p cs).filter (fun w => !w.isEmpty)

/-- Python `needle in hay` for strings (contiguous substring test). -/
def isSubstr (needle hay : String) : Bool :=
  decide (needle.data <:+: hay.data)

/-- Python `str.startswith`. -/
def startsWith (p s : String) : Bool := p.data.isPrefixOf s.data

/-! ### eval_metrics.py -/

/-- `STOP_WORDS` from eval_metrics.py. -/
def STOP_WORDS : List String :=
  ["a", "an", "and", "are", "as", "at", "be", "by", "for", "from", "has", "he",
   "in", "is", "it", "its", "of", "on", "that", "the", "to", "was", "were",
   "will", "with"]

/-- `normalize_text` from eval_metrics.py: lowercase, replace every character
outside `[a-z0-9\s]` by a space, collapse `\s+` runs to single spaces and
strip.  The collapse-and-strip step is rendered as splitting on whitespace and
rejoining the nonempty chunks with single spaces, which is extensionally what
the two regex substitutions plus `strip` do. -/
def normalize_text (text : String) : String :=
  let lowered := text.data.map Char.toLower
  let replaced := lowered.map (fun c => if isLowerAlnum c || isPyWs c then c else ' ')
  ⟨List.intercalate [' '] (wordsBy isPyWs replaced)⟩

/-- `tokenize` from eval_metrics.py: normalised text split on single spaces,
empty text giving no tokens. -/
def tokenize (text : String) : List String :=
  let normalized := normalize_text text
  if normalized = "" then []
  else (splitChunks (fun c => c = ' ') normalized.data).map (fun w => (⟨w⟩ : String))

/-- `exact_match` from eval_metrics.py. -/
def exact_match (reference prediction : String) : ℚ :=
  if normalize_text reference = normalize_text prediction then 1 else 0

/-- `sum((ref_counter & pred_counter).values())`: the Counter intersection
total, i.e. the sum over distinct reference tokens of the minimum of the two
occurrence counts. -/
def multisetOverlap (refTokens predTokens : List String) : Nat :=
  (refTokens.dedup.map (fun t => min (refTokens.count t) (predTokens.count t))).sum

/-- `token_f1` from eval_metrics.py. -/
def token_f1 (reference prediction : String) : ℚ :=
  let ref_tokens := tokenize reference
  let pred_tokens := tokenize prediction
  if ref_tokens = [] ∧ pred_tokens = [] then 1
  else if ref_tokens = [] ∨ pred_tokens = [] then 0
  else
    let overlap := multisetOverlap ref_tokens pred_tokens
    if overlap = 0 then 0
    else
      let precision : ℚ := (overlap : ℚ) / pred_tokens.length
      let recallv : ℚ := (overlap : ℚ) / ref_tokens.length
      2 * precision * recallv / (precision + recallv)

/-- `_dedupe_keep_order` from eval_metrics.py (keeps first occurrences). -/
def dedupe_keep_order (items : List String) : List String :=
  items.foldl (fun deduped item => if item ∈ deduped then deduped else deduped ++ [item]) []

/-- `extract_required_keywords` from eval_metrics.py with its default
`max_keywords = 6` made explicit at the call sites. -/
def extract_required_keywords (reference_answer : String) (tags : List String)
    (max_keywords : Nat) : List String :=
  let tag_keywords := tags.filterMap (fun tag =>
    let tag_lower := pyLower tag
    if startsWith "kw:" tag_lower then
      -- keyword := tag_lower.removeprefix('kw:').strip()
      let keyword := pyStrip ⟨tag_lower.data.drop 3⟩
      if keyword = "" then none else some keyword
    else none)
  if tag_keywords ≠ [] then (dedupe_keep_order tag_keywords).take max_keywords
  else
    let inferred := (tokenize reference_answer).filter (fun token =>
      !(token.length < 4 || token ∈ STOP_WORDS || token.data.all Char.isDigit))
    (dedupe_keep_order inferred).take max_keywords

/-- `keyword_coverage` from eval_metrics.py. -/
def keyword_coverage (response : String) (required_keywords : List String) : ℚ :=
  if required_keywords = [] then 1
  else
    let normalized_response := normalize_text response
    if normalized_response = "" then 0
    else
      let matched := (required_keywords.filter (fun keyword =>
        let normalized_keyword := normalize_text keyword
        normalized_keyword != "" && isSubstr normalized_keyword normalized_response)).length
      (matched : ℚ) / required_keywords.length

/-- `_count_sentences` from eval_metrics.py: `re.split(r'[.!?]+', text)`
followed by keeping chunks with nonempty strip, floored at 1.  Splitting on
single punctuation characters instead of runs is extensionally identical
because runs only introduce empty chunks, which the strip filter removes. -/
def count_sentences (text : String) : Nat :=
  let chunks := splitChunks (fun c => c = '.' || c = '!' || c = '?') text.data
  max 1 (chunks.filter (fun chunk => pyStrip ⟨chunk⟩ != "")).length

/-- `response_length_compliant` from eval_metrics.py. -/
def response_length_compliant (text : String) (max_sentences max_words : Nat) : Bool :=
  let stripped := pyStrip text
  if stripped = "" then false
  else if max_words < (wordsBy isPyWs stripped.data).length then false
  else count_sentences stripped ≤ max_sentences

/-- The fixed fallback refusal idioms of `is_refusal_response`. -/
def fallback_refusal_idioms : List String :=
  ["not enough information", "cannot determine", "outside the scope",
   "do not know", "don t know", "can t answer"]

/-- `is_refusal_response` from eval_metrics.py. -/
def is_refusal_response (response : String) (refusal_markers : List String) : Bool :=
  let normalized_response := normalize_text response
  if normalized_response = "" then true
  else if refusal_markers.any (fun marker =>
      let normalized_marker := normalize_text marker
      normalized_marker != "" && isSubstr normalized_marker normalized_response) then true
  else fallback_refusal_idioms.any (fun idiom => isSubstr idiom normalized_response)

/-! ### eval_dataset.py data model -/

/-- `ExpectedBehavior` literal type from eval_dataset.py. -/
inductive ExpectedBehavior where
  | answer
  | refuse
deriving DecidableEq

/-- `EvalCase` dataclass from eval_dataset.py. -/
structure EvalCase where
  case_id : String
  dataset : String
  category : String
  question : String
  reference_answer : String
  expected_behavior : ExpectedBehavior
  tags : List String
deriving DecidableEq

/-- `CaseScores` dataclass from eval_metrics.py. -/
structure CaseScores where
  exact_match : ℚ
  token_f1 : ℚ
  keyword_coverage : ℚ
  response_length_compliant : Bool
  is_refusal : Bool
  behavior_correct : Bool
deriving DecidableEq

/-- `score_case` from eval_metrics.py. -/
def score_case (c : EvalCase) (response : String) (refusal_markers : List String)
    (max_sentences max_words : Nat) : CaseScores :=
  let case_exact_match := if c.reference_answer ≠ "" then exact_match c.reference_answer response else 0
  let case_token_f1 := if c.reference_answer ≠ "" then token_f1 c.reference_answer response else 0
  let required_keywords := extract_required_keywords c.reference_answer c.tags 6
  let case_keyword_coverage := keyword_coverage response required_keywords
  let case_length_ok := response_length_compliant response max_sentences max_words
  let case_is_refusal := is_refusal_response response refusal_markers
  let behavior_correct :=
    if c.expected_behavior = .refuse then case_is_refusal else !case_is_refusal
  { exact_match := case_exact_match
    token_f1 := case_token_f1
    keyword_coverage := case_keyword_coverage
    response_length_compliant := case_length_ok
    is_refusal := case_is_refusal
    behavior_correct := behavior_correct }

/-! ### The seeded shuffle (model of `random.Random(seed).shuffle`) -/

/-- One step of a 64-bit linear congruential word stream. -/
def lcg_next (s : Nat) : Nat :=
  (6364136223846793005 * s + 1442695040888963407) % 2 ^ 64

/-- Selection-style seeded shuffle: repeatedly pick the next stream-determined
position of the pending list and emit the element there (structural recursion
on a fuel that starts at the list length).  This models CPython's
`rng.shuffle` as a deterministic, seed-indexed permutation — the only
properties of the library shuffle that the evaluation code relies on. -/
def shuffle_fuel : Nat → Nat → List Nat → List Nat
  | 0, _, _ => []
  | fuel + 1, s, pending =>
    if 0 < pending.length then
      let j := s % pending.length
      pending.getD j 0 :: shuffle_fuel fuel (lcg_next s) (pending.eraseIdx j)
    else []

/-- `rng = random.Random(seed); rng.shuffle(xs)` as a pure function. -/
def py_shuffle (seed : Nat) (xs : List Nat) : List Nat :=
  shuffle_fuel xs.length (lcg_next seed) xs

/-! ### eval_dataset.py: deterministic sampling -/

/-- `deterministic_sample` from eval_dataset.py.  `sorted` is rendered by
`insertionSort` (any correct ascending sort is extensionally `sorted` on
natural numbers), and the always-in-range Python indexing `items[index]` by
the total lookup `items[index]?`. -/
def deterministic_sample (items : List EvalCase) (limit : Int) (seed : Nat) : List EvalCase :=
  if limit ≤ 0 ∨ (items.length : Int) ≤ limit then items
  else
    let indices := List.range items.length
    let shuffled := py_shuffle seed indices
    let selected := (shuffled.take limit.toNat).insertionSort (· ≤ ·)
    selected.filterMap (fun index => items[index]?)

/-! ### JSON values and the curated JSONL loader -/

/-- The result of `json.loads` on one line: JSON values, with objects as
field lists (Python dicts: duplicate keys keep the last value). -/
inductive Json where
  | null
  | bool (b : Bool)
  | num (q : ℚ)
  | str (s : String)
  | arr (items : List Json)
  | obj (fields : List (String × Json))

/-- Python `dict.get` on a dict built from JSON object fields: the last
binding of a duplicated key wins. -/
def jget (fields : List (String × Json)) (key : String) : Option Json :=
  ((fields.filter (fun f => f.1 == key)).map (fun f => f.2)).getLast?

/-- `_clean_text` from eval_dataset.py (argument is the result of a
`dict.get`, so `none` models Python `None`). -/
def clean_text (value : Option Json) : String :=
  match value with
  | some (.str s) => pyStrip s
  | _ => ""

/-- `_parse_expected_behavior` from eval_dataset.py. -/
def parse_expected_behavior (value : Option Json) : ExpectedBehavior :=
  if pyLower (clean_text value) = "refuse" then .refuse else .answer

/-- `_parse_tags` from eval_dataset.py. -/
def parse_tags (value : Option Json) : List String :=
  match value with
  | some (.arr items) =>
      items.filterMap (fun item =>
        match item with
        | .str s => if pyStrip s = "" then none else some (pyStrip s)
        | _ => none)
  | _ => []

/-- One raw line of a curated JSONL file, after the out-of-scope
`json.loads` call: blank (stripped to empty), malformed (JSONDecodeError),
or a parsed JSON value. -/
inductive RawLine where
  | blank
  | malformed
  | parsed (record : Json)

/-- The body of the per-line loop of `_load_eval_jsonl`; `none` models
`continue` (skip the line with a warning). -/
def case_of_line (dataset_name : String) (line_number : Nat) (line : RawLine) :
    Option EvalCase :=
  match line with
  | .blank => none
  | .malformed => none
  | .parsed record =>
    match record with
    | .obj fields =>
      let question := clean_text (jget fields "question")
      if question = "" then none
      else
        let case_id :=
          let c := clean_text (jget fields "id")
          if c = "" then dataset_name ++ "-" ++ toString line_number else c
        let category :=
          let c := clean_text (jget fields "category")
          if c = "" then "general" else c
        some
          { case_id := case_id
            dataset := dataset_name
            category := category
            question := question
            reference_answer := clean_text (jget fields "reference_answer")
            expected_behavior := parse_expected_behavior (jget fields "expected_behavior")
            tags := parse_tags (jget fields "tags") }
    | _ => none

/-- `_load_eval_jsonl` from eval_dataset.py: the `enumerate(file, start=1)`
loop with `continue` rendered as a `filterMap` over 1-based enumerated
lines. -/
def load_eval_jsonl (dataset_name : String) (lines : List RawLine) : List EvalCase :=
  (lines.enumFrom 1).filterMap (fun p => case_of_line dataset_name p.1 p.2)

/-! ### eval_dataset.py: held-out validation loader -/

/-- The keyword-to-category table of `_infer_validation_category`
(insertion order of the Python dict). -/
def category_keywords : List (String × List String) :=
  [("work_experience", ["work", "job", "company", "career", "role", "position"]),
   ("skills", ["skill", "technology", "tool", "framework", "language"]),
   ("education", ["school", "degree", "education", "university", "college"]),
   ("projects", ["project", "build", "portfolio", "develop"]),
   ("leadership", ["lead", "manage", "mentor", "team"]),
   ("achievements", ["award", "achievement", "accomplishment", "recognition"]),
   ("character", ["hobby", "interest", "personality", "describe"]),
   ("military_service", ["military", "space force", "air force", "officer", "service"])]

/-- `_infer_validation_category` from eval_dataset.py: first matching
category in table order, default `general`. -/
def infer_validation_category (question : String) : String :=
  let text := pyLower question
  match category_keywords.find? (fun entry => entry.2.any (fun keyword => isSubstr keyword text)) with
  | some entry => entry.1
  | none => "general"

/-- Helper loop of `_extract_role_content`. -/
def extract_role_go (ms : List Json) (role : String) : String :=
  match ms with
  | [] => ""
  | .obj fields :: rest =>
    match jget fields "role", jget fields "content" with
    | some (.str raw_role), some (.str raw_content) =>
        if raw_role = role then pyStrip raw_content else extract_role_go rest role
    | _, _ => extract_role_go rest role
  | _ :: rest => extract_role_go rest role

/-- `_extract_role_content` from eval_dataset.py. -/
def extract_role_content (messages : Option Json) (role : String) : String :=
  match messages with
  | some (.arr ms) => extract_role_go ms role
  | _ => ""

/-- The `selected` row indices of `load_validation_eval_set`:
`row_indices[:limit] if limit > 0 else row_indices` after the seeded
shuffle.  Note: unlike `deterministic_sample`, there is no re-sorting. -/
def validation_selected_indices (total_rows : Nat) (limit : Int) (seed : Nat) : List Nat :=
  let row_indices := List.range total_rows
  let shuffled := py_shuffle seed row_indices
  if 0 < limit then shuffled.take limit.toNat else shuffled

/-- The per-row case builder of the `for row_index in selected` loop of
`load_validation_eval_set`; `none` models `continue`. -/
def validation_case (rows : List (List (String × Json))) (row_index : Nat) : Option EvalCase :=
  match rows[row_index]? with
  | none => none
  | some row =>
    let question := extract_role_content (jget row "messages") "user"
    let reference_answer := extract_role_content (jget row "messages") "assistant"
    if question = "" then none
    else
      some
        { case_id := "validation-" ++ toString row_index
          dataset := "validation"
          category := infer_validation_category question
          question := question
          reference_answer := reference_answer
          expected_behavior := .answer
          tags := ["validation_holdout"] }

/-- `load_validation_eval_set` from eval_dataset.py, from the dataset split
onward (path/DatasetDict handling is out-of-scope resource loading; a row is
the field list of one conversational record). -/
def load_validation_eval_set (rows : List (List (String × Json))) (limit : Int) (seed : Nat) :
    List EvalCase :=
  let total_rows := rows.length
  if total_rows = 0 then []
  else (validation_selected_indices total_rows limit seed).filterMap (validation_case rows)

/-! ### evaluate_model.py: data model -/

/-- `CaseResult` dataclass from evaluate_model.py. -/
structure CaseResult where
  case : EvalCase
  response : String
  scores : CaseScores
  latency_ms : ℚ
  generated_tokens : Nat
  failure_reasons : List String
deriving DecidableEq

/-- `ThresholdCheck` dataclass from evaluate_model.py. -/
structure ThresholdCheck where
  metric : String
  comparator : String
  actual : ℚ
  expected : ℚ
  passed : Bool
deriving DecidableEq

/-- `ModelSummary` dataclass from evaluate_model.py (the dataclass defaults
`fp32_alignment=None`, `threshold_checks=[]`, `threshold_passed=True` are
supplied explicitly where the driver constructs a summary). -/
structure ModelSummary where
  model_file : String
  model_size_mb : ℚ
  total_cases : Nat
  answer_cases : Nat
  refusal_cases : Nat
  exact_match_rate : ℚ
  token_f1 : ℚ
  keyword_coverage : ℚ
  refusal_accuracy : ℚ
  response_length_compliance : ℚ
  behavior_accuracy : ℚ
  mean_latency_ms : ℚ
  p95_latency_ms : ℚ
  tokens_per_second : ℚ
  category_pass_rate : List (String × ℚ)
  failure_count : Nat
  fp32_alignment : Option ℚ
  threshold_checks : List ThresholdCheck
  threshold_passed : Bool
deriving DecidableEq

/-- The `evaluation.thresholds` section of the configuration, passed
explicitly (the Python code reads it from the global `CONFIG`). -/
structure Thresholds where
  exact_match_rate_min : ℚ
  token_f1_min : ℚ
  keyword_coverage_min : ℚ
  response_length_compliance_min : ℚ
  behavior_accuracy_min : ℚ
  refusal_accuracy_min : ℚ
  fp32_alignment_min : ℚ
  p95_latency_ms_max : List (String × ℚ)

/-- `_case_key` from evaluate_model.py. -/
def case_key (c : EvalCase) : String := c.dataset ++ ":" ++ c.case_id

/-- `_safe_mean` from evaluate_model.py. -/
def safe_mean (values : List ℚ) : ℚ :=
  if values = [] then 0 else values.sum / values.length

/-- `_p95` from evaluate_model.py (nearest-rank 95th percentile; Python's
`sorted` rendered by `insertionSort`, `math.ceil` by `⌈·⌉` on exact
rationals). -/
def p95 (values : List ℚ) : ℚ :=
  if values = [] then 0
  else
    let sorted_values := values.insertionSort (· ≤ ·)
    let index := max 0 (⌈(0.95 : ℚ) * values.length⌉ - 1)
    sorted_values.getD index.toNat 0

/-! ### evaluate_model.py: aggregation -/

/-- `_aggregate_summary` from evaluate_model.py.  The two dict-accumulation
loops for per-category totals are rendered by counting, per category key (in
first-appearance order, then sorted as in the Python `sorted(...items())`),
the results and the failure-free results of that category. -/
def aggregate_summary (model_file : String) (model_size_mb : ℚ)
    (results : List CaseResult) : ModelSummary :=
  let answer_results := results.filter (fun r => r.case.expected_behavior == .answer)
  let refusal_results := results.filter (fun r => r.case.expected_behavior == .refuse)
  let exact_match_values := answer_results.map (fun r => r.scores.exact_match)
  let token_f1_values := answer_results.map (fun r => r.scores.token_f1)
  let keyword_values := answer_results.map (fun r => r.scores.keyword_coverage)
  let refusal_values := refusal_results.map (fun r => if r.scores.behavior_correct then (1 : ℚ) else 0)
  let length_values := results.map (fun r => if r.scores.response_length_compliant then (1 : ℚ) else 0)
  let behavior_values := results.map (fun r => if r.scores.behavior_correct then (1 : ℚ) else 0)
  let latency_values := results.map (fun r => r.latency_ms)
  let total_generated_tokens : ℚ := ((results.map (fun r => r.generated_tokens)).sum : Nat)
  let total_generation_seconds : ℚ := (results.map (fun r => r.latency_ms)).sum / 1000
  let tokens_per_second :=
    if 0 < total_generation_seconds then total_generated_tokens / total_generation_seconds else 0
  let categories := (dedupe_keep_order (results.map (fun r => r.case.category))).insertionSort (· ≤ ·)
  let category_pass_rate := categories.map (fun category =>
    let total := (results.filter (fun r => r.case.category == category)).length
    let passed := (results.filter (fun r => r.case.category == category && r.failure_reasons.isEmpty)).length
    (category, (passed : ℚ) / total))
  { model_file := model_file
    model_size_mb := model_size_mb
    total_cases := results.length
    answer_cases := answer_results.length
    refusal_cases := refusal_results.length
    exact_match_rate := safe_mean exact_match_values
    token_f1 := safe_mean token_f1_values
    keyword_coverage := safe_mean keyword_values
    refusal_accuracy := safe_mean refusal_values
    response_length_compliance := safe_mean length_values
    behavior_accuracy := safe_mean behavior_values
    mean_latency_ms := safe_mean latency_values
    p95_latency_ms := p95 latency_values
    tokens_per_second := tokens_per_second
    category_pass_rate := category_pass_rate
    failure_count := (results.filter (fun r => !r.failure_reasons.isEmpty)).length
    fp32_alignment := none
    threshold_checks := []
    threshold_passed := true }

/-! ### evaluate_model.py: cross-model fp32 alignment -/

/-- The `fp32_outputs` dict of `_apply_fp32_alignment` as a lookup: the dict
comprehension lets later results overwrite earlier ones, so a key maps to the
response of the last reference result with that case key. -/
def fp32_response (fp32_results : List CaseResult) (key : String) : Option String :=
  ((fp32_results.filter (fun r => case_key r.case == key)).map (fun r => r.response)).getLast?

/-- The `alignments` list collected for one non-reference model in
`_apply_fp32_alignment`: one token-F1 per case whose key the reference also
answered. -/
def alignment_values (fp32_results model_results : List CaseResult) : List ℚ :=
  model_results.filterMap (fun r =>
    (fp32_response fp32_results (case_key r.case)).map (fun fp32resp => token_f1 fp32resp r.response))

/-- The update `_apply_fp32_alignment` performs on one summary entry: the
reference variant's own alignment becomes 1, any other evaluated variant gets
the mean of its `alignment_values` (or `None` when there are none). -/
def align_entry (results_by_model : List (String × List CaseResult))
    (fp32_results : List CaseResult) (entry : String × ModelSummary) :
    String × ModelSummary :=
  match results_by_model.lookup entry.1 with
  | none => entry
  | some model_results =>
    if entry.1 = "model.onnx" then
      (entry.1, { entry.2 with fp32_alignment := some 1 })
    else
      let alignments := alignment_values fp32_results model_results;
      (entry.1, { entry.2 with
        fp32_alignment := if alignments ≠ [] then some (safe_mean alignments) else none })

/-- `_apply_fp32_alignment` from evaluate_model.py.  The in-place per-key
mutation of `summaries` is rendered as a map over the summary entries (the
driver keeps `summaries` and `results_by_model` with identical keys). -/
def apply_fp32_alignment (summaries : List (String × ModelSummary))
    (results_by_model : List (String × List CaseResult)) : List (String × ModelSummary) :=
  match results_by_model.lookup "model.onnx" with
  | none => summaries
  | some fp32_results => summaries.map (align_entry results_by_model fp32_results)

/-! ### evaluate_model.py: threshold checks -/

/-- `_run_threshold_checks` from evaluate_model.py: returns the summary with
`threshold_checks` and `threshold_passed` populated. -/
def run_threshold_checks (thresholds : Thresholds) (summary : ModelSummary) : ModelSummary :=
  let base : List ThresholdCheck :=
    [{ metric := "exact_match_rate", comparator := ">=",
       actual := summary.exact_match_rate, expected := thresholds.exact_match_rate_min,
       passed := decide (summary.exact_match_rate ≥ thresholds.exact_match_rate_min) },
     { metric := "token_f1", comparator := ">=",
       actual := summary.token_f1, expected := thresholds.token_f1_min,
       passed := decide (summary.token_f1 ≥ thresholds.token_f1_min) },
     { metric := "keyword_coverage", comparator := ">=",
       actual := summary.keyword_coverage, expected := thresholds.keyword_coverage_min,
       passed := decide (summary.keyword_coverage ≥ thresholds.keyword_coverage_min) },
     { metric := "response_length_compliance", comparator := ">=",
       actual := summary.response_length_compliance,
       expected := thresholds.response_length_compliance_min,
       passed := decide (summary.response_length_compliance ≥ thresholds.response_length_compliance_min) },
     { metric := "behavior_accuracy", comparator := ">=",
       actual := summary.behavior_accuracy, expected := thresholds.behavior_accuracy_min,
       passed := decide (summary.behavior_accuracy ≥ thresholds.behavior_accuracy_min) }]
  let refusal_check : List ThresholdCheck :=
    if 0 < summary.refusal_cases then
      [{ metric := "refusal_accuracy", comparator := ">=",
         actual := summary.refusal_accuracy, expected := thresholds.refusal_accuracy_min,
         passed := decide (summary.refusal_accuracy ≥ thresholds.refusal_accuracy_min) }]
    else []
  let fp32_check : List ThresholdCheck :=
    if summary.model_file = "model.onnx" then []
    else
      match summary.fp32_alignment with
      | none => []
      | some alignment =>
        [{ metric := "fp32_alignment", comparator := ">=",
           actual := alignment, expected := thresholds.fp32_alignment_min,
           passed := decide (alignment ≥ thresholds.fp32_alignment_min) }]
  let latency_check : List ThresholdCheck :=
    match thresholds.p95_latency_ms_max.lookup summary.model_file with
    | none => []
    | some latency_budget =>
      [{ metric := "p95_latency_ms", comparator := "<=",
         actual := summary.p95_latency_ms, expected := latency_budget,
         passed := decide (summary.p95_latency_ms ≤ latency_budget) }]
  let checks := base ++ refusal_check ++ fp32_check ++ latency_check
  { summary with threshold_checks := checks, threshold_passed := checks.all (fun c => c.passed) }

/-! ### evaluate_model.py: serialization and baseline comparison -/

/-- Python `round` to an integer: round half to even (exact-tie rule of the
model; float representation effects sit below this abstraction). -/
def round_half_even (q : ℚ) : ℤ :=
  let f := ⌊q⌋
  let frac := q - f
  if frac < 1 / 2 then f
  else if 1 / 2 < frac then f + 1
  else if f % 2 = 0 then f else f + 1

/-- Python `round(x, 6)`. -/
def round6 (q : ℚ) : ℚ := (round_half_even (q * 1000000) : ℚ) / 1000000

/-- Python `round(x, 3)`. -/
def round3 (q : ℚ) : ℚ := (round_half_even (q * 1000) : ℚ) / 1000

/-- The `metrics` sub-dict of `_serialize_model_summary` from
evaluate_model.py (the only part the comparator consumes). -/
def serialize_metrics (summary : ModelSummary) : List (String × Json) :=
  [("exact_match_rate", .num (round6 summary.exact_match_rate)),
   ("token_f1", .num (round6 summary.token_f1)),
   ("keyword_coverage", .num (round6 summary.keyword_coverage)),
   ("refusal_accuracy", .num (round6 summary.refusal_accuracy)),
   ("response_length_compliance", .num (round6 summary.response_length_compliance)),
   ("behavior_accuracy", .num (round6 summary.behavior_accuracy)),
   ("mean_latency_ms", .num (round3 summary.mean_latency_ms)),
   ("p95_latency_ms", .num (round3 summary.p95_latency_ms)),
   ("tokens_per_second", .num (round3 summary.tokens_per_second)),
   ("fp32_alignment",
     match summary.fp32_alignment with
     | some alignment => .num (round6 alignment)
     | none => .null)]

/-- Python `isinstance(value, (int, float))` followed by `float(value)`:
booleans are `int` subtypes in Python, so JSON `true`/`false` count as 1/0. -/
def py_num (j : Json) : Option ℚ :=
  match j with
  | .num q => some q
  | .bool b => some (if b then 1 else 0)
  | _ => none

/-- `tracked_metrics` from `_compute_comparison`. -/
def tracked_metrics : List String :=
  ["exact_match_rate", "token_f1", "keyword_coverage", "refusal_accuracy",
   "response_length_compliance", "behavior_accuracy", "p95_latency_ms",
   "tokens_per_second", "fp32_alignment"]

/-- `_extract_baseline_metric` from evaluate_model.py. -/
def extract_baseline_metric (model_payload : Json) (metric : String) : Option ℚ :=
  match model_payload with
  | .obj fields =>
    match jget fields "metrics" with
    | some (.obj metrics_fields) => (jget metrics_fields metric).bind py_num
    | _ => none
  | _ => none

/-- The `deltas` dict built for one model inside `_compute_comparison`. -/
def model_deltas (baseline_payload : Json) (summary : ModelSummary) : List (String × ℚ) :=
  let current_metrics := serialize_metrics summary
  tracked_metrics.filterMap (fun metric =>
    match (jget current_metrics metric).bind py_num, extract_baseline_metric baseline_payload metric with
    | some current_value, some baseline_value => some (metric, current_value - baseline_value)
    | _, _ => none)

/-- `_compute_comparison` from evaluate_model.py (baseline payloads as the
JSON objects `_load_baseline_metrics` returns; `baseline_models.get` is
`jget`). -/
def compute_comparison (summaries : List (String × ModelSummary))
    (baseline_models : Option (List (String × Json))) : List (String × List (String × ℚ)) :=
  match baseline_models with
  | none => []
  | some baseline =>
    summaries.filterMap (fun entry =>
      match jget baseline entry.1 with
      | none => none
      | some baseline_payload =>
        let deltas := model_deltas baseline_payload entry.2
        if deltas ≠ [] then some (entry.1, deltas) else none)

/-! ### Theorems -/

/-- C5: `token_f1` boundary cases: both sides empty gives 1; exactly one side
empty gives 0; `token_f1 "a b c" "a b"` has multiset precision 1, recall 2/3
and F1 4/5 = 0.8; and in general (both token lists nonempty, nonzero overlap)
it is the precision/recall harmonic mean over the token multiset
intersection of the normalized texts. -/
theorem token_f1_boundary_cases :
    token_f1 "" "" = 1
    ∧ token_f1 "a b" "" = 0
    ∧ (multisetOverlap (tokenize "a b c") (tokenize "a b") : ℚ) / (tokenize "a b").length = 1
    ∧ (multisetOverlap (tokenize "a b c") (tokenize "a b") : ℚ) / (tokenize "a b c").length = 2 / 3
    ∧ token_f1 "a b c" "a b" = 4 / 5
    ∧ (∀ reference prediction : String,
        tokenize reference ≠ [] → tokenize prediction ≠ [] →
        multisetOverlap (tokenize reference) (tokenize prediction) ≠ 0 →
        token_f1 reference prediction =
          2 * ((multisetOverlap (tokenize reference) (tokenize prediction) : ℚ)
                / (tokenize prediction).length)
            * ((multisetOverlap (tokenize reference) (tokenize prediction) : ℚ)
                / (tokenize reference).length)
            / (((multisetOverlap (tokenize reference) (tokenize prediction) : ℚ)
                / (tokenize prediction).length)
               + ((multisetOverlap (tokenize reference) (tokenize prediction) : ℚ)
                / (tokenize reference).length))) := by
  refine ⟨by decide, by decide, ?_, ?_, ?_, ?_⟩
  · rw [show tokenize "a b c" = ["a", "b", "c"] from by decide,
      show tokenize "a b" = ["a", "b"] from by decide,
      show multisetOverlap ["a", "b", "c"] ["a", "b"] = 2 from by decide]
    norm_num
  · rw [show tokenize "a b c" = ["a", "b", "c"] from by decide,
      show tokenize "a b" = ["a", "b"] from by decide,
      show multisetOverlap ["a", "b", "c"] ["a", "b"] = 2 from by decide]
    norm_num
  · simp only [token_f1]
    rw [show tokenize "a b c" = ["a", "b", "c"] from by decide,
      show tokenize "a b" = ["a", "b"] from by decide]
    rw [if_neg (by decide), if_neg (by decide),
      show multisetOverlap ["a", "b", "c"] ["a", "b"] = 2 from by decide,
      if_neg (by decide)]
    norm_num
  · intro reference prediction href hpred hoverlap
    simp only [token_f1]
    rw [if_neg (by exact fun h => href h.1), if_neg (by exact fun h => h.elim href hpred),
      if_neg hoverlap]

/-- Witness for the general harmonic-mean clause of `token_f1_boundary_cases`
at the concrete pair `("a b c", "a b")`. -/
theorem token_f1_boundary_cases_witness :
    token_f1 "a b c" "a b" =
      2 * ((multisetOverlap (tokenize "a b c") (tokenize "a b") : ℚ) / (tokenize "a b").length)
        * ((multisetOverlap (tokenize "a b c") (tokenize "a b") : ℚ) / (tokenize "a b c").length)
        / (((multisetOverlap (tokenize "a b c") (tokenize "a b") : ℚ) / (tokenize "a b").length)
           + ((multisetOverlap (tokenize "a b c") (tokenize "a b") : ℚ) / (tokenize "a b c").length)) :=
  token_f1_boundary_cases.2.2.2.2.2 "a b c" "a b" (by decide) (by decide) (by decide)

/-- C6: aggregating an empty `CaseResult` list is total and yields 0 for
every rate, for mean and p95 latency and for tokens-per-second; in general
`_safe_mean` of an empty collection is 0. -/
theorem aggregate_summary_empty (model_file : String) (model_size_mb : ℚ) :
    (aggregate_summary model_file model_size_mb []).exact_match_rate = 0
    ∧ (aggregate_summary model_file model_size_mb []).token_f1 = 0
    ∧ (aggregate_summary model_file model_size_mb []).keyword_coverage = 0
    ∧ (aggregate_summary model_file model_size_mb []).refusal_accuracy = 0
    ∧ (aggregate_summary model_file model_size_mb []).response_length_compliance = 0
    ∧ (aggregate_summary model_file model_size_mb []).behavior_accuracy = 0
    ∧ (aggregate_summary model_file model_size_mb []).mean_latency_ms = 0
    ∧ (aggregate_summary model_file model_size_mb []).p95_latency_ms = 0
    ∧ (aggregate_summary model_file model_size_mb []).tokens_per_second = 0
    ∧ safe_mean [] = 0 := by
  refine ⟨rfl, rfl, rfl, rfl, rfl, rfl, rfl, rfl, ?_, rfl⟩
  show (if (0 : ℚ) < (0 : ℚ) / 1000 then ((0 : ℚ) / (0 / 1000)) else 0) = 0
  norm_num

/-- C7: for nonempty input, `_p95` is the entry of the ascending-sorted list
at the zero-based nearest-rank index `max 0 (⌈0.95·n⌉ - 1)`, which is always
in range; the sorted list is an ascending-sorted permutation of the input. -/
theorem p95_nearest_rank (values : List ℚ) (h : values ≠ []) :
    (max 0 (⌈(0.95 : ℚ) * values.length⌉ - 1)).toNat < values.length
    ∧ List.Perm (values.insertionSort (· ≤ ·)) values
    ∧ List.Sorted (· ≤ ·) (values.insertionSort (· ≤ ·))
    ∧ p95 values
        = (values.insertionSort (· ≤ ·)).getD (max 0 (⌈(0.95 : ℚ) * values.length⌉ - 1)).toNat 0 := by
  have hn : 1 ≤ values.length := List.length_pos.mpr h
  have hceil : ⌈(0.95 : ℚ) * values.length⌉ ≤ (values.length : ℤ) := by
    rw [Int.ceil_le]
    push_cast
    nlinarith [Nat.cast_nonneg (α := ℚ) values.length]
  have hidx : (max 0 (⌈(0.95 : ℚ) * values.length⌉ - 1)).toNat < values.length := by
    have h1 : max 0 (⌈(0.95 : ℚ) * values.length⌉ - 1) ≤ (values.length : ℤ) - 1 := by
      omega
    have h2 : ((values.length : ℤ) - 1).toNat = values.length - 1 := by omega
    omega
  exact ⟨hidx, List.perm_insertionSort _ _, List.sorted_insertionSort _ _, by
    simp only [p95]
    rw [if_neg h]⟩

/-- Witness for `p95_nearest_rank` at the concrete list `[10, 20]`
(index `max 0 (⌈1.9⌉ - 1) = 1`, sorted list `[10, 20]`, p95 = 20). -/
theorem p95_nearest_rank_witness :
    (max 0 (⌈(0.95 : ℚ) * ([(10 : ℚ), 20] : List ℚ).length⌉ - 1)).toNat < ([(10 : ℚ), 20] : List ℚ).length
    ∧ List.Perm (([(10 : ℚ), 20] : List ℚ).insertionSort (· ≤ ·)) [(10 : ℚ), 20]
    ∧ List.Sorted (· ≤ ·) (([(10 : ℚ), 20] : List ℚ).insertionSort (· ≤ ·))
    ∧ p95 [(10 : ℚ), 20]
        = (([(10 : ℚ), 20] : List ℚ).insertionSort (· ≤ ·)).getD
            (max 0 (⌈(0.95 : ℚ) * ([(10 : ℚ), 20] : List ℚ).length⌉ - 1)).toNat 0 :=
  p95_nearest_rank [10, 20] (by simp)

/-- C4: threshold evaluation emits the five fixed `>=` checks always, a
refusal-accuracy check iff the model had a `refuse`-type case, an
fp32-alignment check iff the model is not the reference variant and has a
computed alignment, a `<=` p95-latency check iff a budget is configured for
the model filename; `threshold_passed` is the conjunction of exactly the
emitted checks, and each emitted check's pass flag is its own
comparator-vs-bound comparison. -/
theorem run_threshold_checks_spec (thresholds : Thresholds) (summary : ModelSummary) :
    ((run_threshold_checks thresholds summary).threshold_checks.map (fun c => (c.metric, c.comparator)) =
      [("exact_match_rate", ">="), ("token_f1", ">="), ("keyword_coverage", ">="),
       ("response_length_compliance", ">="), ("behavior_accuracy", ">=")]
      ++ (if 0 < summary.refusal_cases then [("refusal_accuracy", ">=")] else [])
      ++ (if summary.model_file ≠ "model.onnx" ∧ summary.fp32_alignment ≠ none then
            [("fp32_alignment", ">=")] else [])
      ++ (if (thresholds.p95_latency_ms_max.lookup summary.model_file).isSome then
            [("p95_latency_ms", "<=")] else []))
    ∧ (run_threshold_checks thresholds summary).threshold_passed
        = (run_threshold_checks thresholds summary).threshold_checks.all (fun c => c.passed)
    ∧ (summary.refusal_cases = 0 →
        ∀ c ∈ (run_threshold_checks thresholds summary).threshold_checks,
          c.metric ≠ "refusal_accuracy")
    ∧ (∀ c ∈ (run_threshold_checks thresholds summary).threshold_checks,
        c.passed = if c.comparator = "<=" then decide (c.actual ≤ c.expected)
                   else decide (c.actual ≥ c.expected)) := by
  obtain ⟨mf, msz, tc, ac, rc, em, tf, kc, ra, rlc, ba, ml, pl, tps, cpr, fc, al, tch, tp⟩ := summary
  refine ⟨?_, rfl, ?_, ?_⟩
  · rcases al with _ | alignment <;>
    rcases hl : List.lookup mf thresholds.p95_latency_ms_max with _ | budget <;>
    by_cases hm : mf = "model.onnx" <;>
    by_cases hr : 0 < rc <;>
    (try simp only [hm] at hl ⊢) <;>
    simp [run_threshold_checks, hl, hm, hr]
  · intro hzero
    simp only at hzero
    rcases al with _ | alignment <;>
    rcases hl : List.lookup mf thresholds.p95_latency_ms_max with _ | budget <;>
    by_cases hm : mf = "model.onnx" <;>
    (try simp only [hm] at hl ⊢) <;>
    simp [run_threshold_checks, hl, hm, hzero, List.forall_mem_cons, or_imp, forall_and,
      forall_eq, and_imp]
  · rcases al with _ | alignment <;>
    rcases hl : List.lookup mf thresholds.p95_latency_ms_max with _ | budget <;>
    by_cases hm : mf = "model.onnx" <;>
    by_cases hr : 0 < rc <;>
    (try simp only [hm] at hl ⊢) <;>
    simp [run_threshold_checks, hl, hm, hr, List.forall_mem_cons, or_imp, forall_and,
      forall_eq, and_imp]

/-- Concrete thresholds used by the threshold-check witness. -/
def witness_thresholds : Thresholds :=
  { exact_match_rate_min := 0, token_f1_min := 0, keyword_coverage_min := 0,
    response_length_compliance_min := 0, behavior_accuracy_min := 0,
    refusal_accuracy_min := 0, fp32_alignment_min := 0,
    p95_latency_ms_max := [("model_int8.onnx", 1000)] }

/-- Concrete summary (a quantized non-reference variant with a computed
alignment, a configured latency budget and zero refusal cases) used by the
threshold-check witness. -/
def witness_summary : ModelSummary :=
  { model_file := "model_int8.onnx", model_size_mb := 10, total_cases := 1, answer_cases := 1,
    refusal_cases := 0, exact_match_rate := 1, token_f1 := 1, keyword_coverage := 1,
    refusal_accuracy := 0, response_length_compliance := 1, behavior_accuracy := 1,
    mean_latency_ms := 5, p95_latency_ms := 5, tokens_per_second := 10,
    category_pass_rate := [], failure_count := 0, fp32_alignment := some 1,
    threshold_checks := [], threshold_passed := true }

/-- Witness for `run_threshold_checks_spec` at a concrete summary with zero
refusal cases: its emitted latency check is not a refusal-accuracy check. -/
theorem run_threshold_checks_spec_witness :
    witness_summary.refusal_cases = 0
    ∧ ({ metric := "p95_latency_ms", comparator := "<=", actual := 5, expected := 1000,
         passed := true } : ThresholdCheck).metric ≠ "refusal_accuracy" :=
  ⟨rfl, (run_threshold_checks_spec witness_thresholds witness_summary).2.2.1 rfl _ (by decide)⟩

/-- C10: when a case's `reference_answer` is empty, `score_case` scores
`exact_match = 0` and `token_f1 = 0` for every response — including the empty
response, for which the standalone `token_f1` would give 1 — and, when the
case also has no `kw:` tags, the keyword fallback extracts no required
keywords, so `keyword_coverage = 1`. -/
theorem score_case_empty_reference (c : EvalCase) (response : String)
    (refusal_markers : List String) (max_sentences max_words : Nat)
    (href : c.reference_answer = "") :
    (score_case c response refusal_markers max_sentences max_words).exact_match = 0
    ∧ (score_case c response refusal_markers max_sentences max_words).token_f1 = 0
    ∧ token_f1 "" "" = 1
    ∧ ((∀ tag ∈ c.tags, startsWith "kw:" (pyLower tag) = false) →
        (score_case c response refusal_markers max_sentences max_words).keyword_coverage = 1) := by
  refine ⟨by simp [score_case, href], by simp [score_case, href], by decide, ?_⟩
  intro htags
  have hkw : extract_required_keywords c.reference_answer c.tags 6 = [] := by
    rw [href]
    simp only [extract_required_keywords, List.filterMap_eq_nil_iff]
    rw [if_neg (by
      simp only [ne_eq, List.filterMap_eq_nil_iff, not_forall, not_not]
      push_neg
      intro tag htag
      simp [htags tag htag])]
    rfl
  simp [score_case, hkw, keyword_coverage]

/-- Concrete case with an empty reference answer and no `kw:` tags. -/
def witness_case : EvalCase :=
  { case_id := "golden-1", dataset := "golden", category := "general",
    question := "q", reference_answer := "", expected_behavior := .answer,
    tags := ["factual"] }

/-- Witness for `score_case_empty_reference` at a concrete case scored
against the empty response. -/
theorem score_case_empty_reference_witness :
    witness_case.reference_answer = ""
    ∧ (score_case witness_case "" [] 3 60).exact_match = 0
    ∧ (score_case witness_case "" [] 3 60).token_f1 = 0
    ∧ token_f1 "" "" = 1
    ∧ (score_case witness_case "" [] 3 60).keyword_coverage = 1 := by
  have h := score_case_empty_reference witness_case "" [] 3 60 rfl
  exact ⟨rfl, h.1, h.2.1, h.2.2.1, h.2.2.2 (by decide)⟩

/-- Association-list lookup through a key-preserving map. -/
theorem lookup_map_keyfix {β : Type} (f : (String × β) → (String × β))
    (hf : ∀ e, (f e).1 = e.1) (l : List (String × β)) (k : String) (v : β)
    (h : l.lookup k = some v) : (l.map f).lookup k = some (f (k, v)).2 := by
  induction l with
  | nil => simp [List.lookup] at h
  | cons e t ih =>
    rcases e with ⟨a, b⟩
    rcases hfe : f (a, b) with ⟨a2, b2⟩
    have h1 : a2 = a := by
      have h2 := hf (a, b)
      rw [hfe] at h2
      simpa using h2
    rw [h1] at hfe
    by_cases hak : k = a
    · subst hak
      simp [List.lookup] at h
      subst h
      simp [List.lookup, hfe]
    · have hbeq : (k == a) = false := beq_eq_false_iff_ne.mpr hak
      simp only [List.lookup, hbeq] at h
      simp only [List.map_cons, List.lookup, hfe, hbeq]
      exact ih h

/-- The per-entry alignment update preserves the model-file key. -/
theorem align_entry_key (results_by_model : List (String × List CaseResult))
    (fp32_results : List CaseResult) (entry : String × ModelSummary) :
    (align_entry results_by_model fp32_results entry).1 = entry.1 := by
  rcases hre : results_by_model.lookup entry.1 with _ | mrs <;> simp [align_entry, hre]
  split <;> rfl

/-- C3: the cross-model alignment pass: if the reference variant
`model.onnx` was not evaluated, the summaries are returned untouched (and
aggregation builds every summary with alignment `None`); otherwise the
reference's own alignment is set to 1 by convention, and every other
evaluated variant's alignment becomes the mean token-F1 against the
reference's responses on cases matched by the composite partition+id key —
`None` rather than 0 when no cases overlap (overlap emptiness being exactly
"no case key of the variant was answered by the reference"). -/
theorem apply_fp32_alignment_spec (summaries : List (String × ModelSummary))
    (results_by_model : List (String × List CaseResult)) :
    (results_by_model.lookup "model.onnx" = none →
       apply_fp32_alignment summaries results_by_model = summaries)
    ∧ (∀ mf msz rs, (aggregate_summary mf msz rs).fp32_alignment = none)
    ∧ (∀ fp32_results s, results_by_model.lookup "model.onnx" = some fp32_results →
        summaries.lookup "model.onnx" = some s →
        (apply_fp32_alignment summaries results_by_model).lookup "model.onnx"
          = some { s with fp32_alignment := some 1 })
    ∧ (∀ fp32_results mf s mrs, results_by_model.lookup "model.onnx" = some fp32_results →
        mf ≠ "model.onnx" → summaries.lookup mf = some s →
        results_by_model.lookup mf = some mrs →
        (apply_fp32_alignment summaries results_by_model).lookup mf
          = some { s with fp32_alignment :=
              (if alignment_values fp32_results mrs ≠ [] then
                some (safe_mean (alignment_values fp32_results mrs))
              else none) })
    ∧ (∀ fp32_results mrs, alignment_values fp32_results mrs = [] ↔
        ∀ r ∈ mrs, fp32_response fp32_results (case_key r.case) = none) := by
  refine ⟨?_, fun _ _ _ => rfl, ?_, ?_, ?_⟩
  · intro h
    simp [apply_fp32_alignment, h]
  · intro fp32_results s href hs
    simp only [apply_fp32_alignment, href]
    rw [lookup_map_keyfix _ (align_entry_key results_by_model fp32_results) summaries
      "model.onnx" s hs]
    simp [align_entry, href]
  · intro fp32_results mf s mrs href hmf hs hmrs
    simp only [apply_fp32_alignment, href]
    rw [lookup_map_keyfix _ (align_entry_key results_by_model fp32_results) summaries mf s hs]
    simp [align_entry, hmrs, hmf]
  · intro fp32_results mrs
    simp [alignment_values, List.filterMap_eq_nil_iff, Option.map_eq_none']

/-- Concrete case shared by the two alignment witness results. -/
def alignment_case : EvalCase :=
  { case_id := "1", dataset := "golden", category := "general", question := "q",
    reference_answer := "", expected_behavior := .answer, tags := [] }

/-- Neutral concrete per-case scores for witness results. -/
def zero_scores : CaseScores :=
  { exact_match := 0, token_f1 := 0, keyword_coverage := 0,
    response_length_compliant := true, is_refusal := false, behavior_correct := true }

/-- Reference-model result on the shared case. -/
def fp32_case_result : CaseResult :=
  { case := alignment_case, response := "alpha beta", scores := zero_scores,
    latency_ms := 1, generated_tokens := 1, failure_reasons := [] }

/-- Quantized-model result on the shared case. -/
def q4_case_result : CaseResult :=
  { case := alignment_case, response := "alpha", scores := zero_scores,
    latency_ms := 1, generated_tokens := 1, failure_reasons := [] }

/-- Quantized-variant summary for the alignment witness. -/
def q4_summary : ModelSummary := { witness_summary with model_file := "model_q4.onnx" }

/-- Reference-variant summary for the alignment witness. -/
def onnx_summary : ModelSummary :=
  { witness_summary with model_file := "model.onnx", fp32_alignment := none }

/-- Summaries keyed by model file for the alignment witness. -/
def witness_summaries : List (String × ModelSummary) :=
  [("model.onnx", onnx_summary), ("model_q4.onnx", q4_summary)]

/-- Results keyed by model file for the alignment witness. -/
def witness_results : List (String × List CaseResult) :=
  [("model.onnx", [fp32_case_result]), ("model_q4.onnx", [q4_case_result])]

/-- Witness for `apply_fp32_alignment_spec`: the quantized variant of a
concrete two-model run receives the mean token-F1 alignment against the
reference responses. -/
theorem apply_fp32_alignment_spec_witness :
    ("model_q4.onnx" : String) ≠ "model.onnx"
    ∧ (apply_fp32_alignment witness_summaries witness_results).lookup "model_q4.onnx"
        = some { q4_summary with fp32_alignment :=
            (if alignment_values [fp32_case_result] [q4_case_result] ≠ [] then
              some (safe_mean (alignment_values [fp32_case_result] [q4_case_result]))
            else none) } :=
  ⟨by decide,
   (apply_fp32_alignment_spec witness_summaries witness_results).2.2.2.1
     [fp32_case_result] "model_q4.onnx" q4_summary [q4_case_result] rfl (by decide) rfl rfl⟩

/-- C8: curated JSONL loading is per-line and never aborts: blank, malformed,
non-object and missing-question lines are skipped while every other line
still contributes its case; a record without a usable id gets the
synthesized id `<partition>-<line number>` (1-based); an `expected_behavior`
other than `refuse` defaults to `answer`; tag parsing keeps only nonempty
strings and a non-list `tags` value degrades to no tags. -/
theorem load_eval_jsonl_spec (name : String) (lines : List RawLine) :
    (∀ line_number : Nat, case_of_line name line_number .blank = none
       ∧ case_of_line name line_number .malformed = none
       ∧ (∀ j : Json, (∀ fields, j ≠ .obj fields) →
            case_of_line name line_number (.parsed j) = none)
       ∧ (∀ fields, clean_text (jget fields "question") = "" →
            case_of_line name line_number (.parsed (.obj fields)) = none))
    ∧ (∀ (i : Nat) (h : i < lines.length) (c : EvalCase),
        case_of_line name (1 + i) (lines.get ⟨i, h⟩) = some c →
        c ∈ load_eval_jsonl name lines)
    ∧ (∀ (line_number : Nat) (fields : List (String × Json)) (c : EvalCase),
        clean_text (jget fields "id") = "" →
        case_of_line name line_number (.parsed (.obj fields)) = some c →
        c.case_id = name ++ "-" ++ toString line_number)
    ∧ (∀ v : Option Json, pyLower (clean_text v) ≠ "refuse" →
        parse_expected_behavior v = .answer)
    ∧ (∀ v : Option Json, (∀ items, v ≠ some (.arr items)) → parse_tags v = [])
    ∧ (∀ v : Option Json, ∀ t ∈ parse_tags v, t ≠ "") := by
  refine ⟨?_, ?_, ?_, ?_, ?_, ?_⟩
  · intro line_number
    refine ⟨rfl, rfl, ?_, ?_⟩
    · intro j hj
      cases j with
      | obj fields => exact absurd rfl (hj fields)
      | null => rfl
      | bool b => rfl
      | num q => rfl
      | str s => rfl
      | arr items => rfl
    · intro fields hq
      simp [case_of_line, hq]
  · intro i h c hcase
    refine List.mem_filterMap.mpr ⟨(1 + i, lines.get ⟨i, h⟩), ?_, hcase⟩
    have hget : (lines.enumFrom 1)[i]? = some (1 + i, lines.get ⟨i, h⟩) := by
      rw [List.getElem?_enumFrom]
      simp [List.getElem?_eq_getElem h]
    obtain ⟨hlt, heq⟩ := List.getElem?_eq_some.mp hget
    exact heq ▸ List.getElem_mem hlt
  · intro line_number fields c hid hcase
    simp only [case_of_line] at hcase
    by_cases hq : clean_text (jget fields "question") = ""
    · rw [if_pos hq] at hcase
      exact absurd hcase (by simp)
    · rw [if_neg hq] at hcase
      injection hcase with h2
      rw [← h2]
      simp [hid]
  · intro v hv
    simp [parse_expected_behavior, hv]
  · intro v hv
    cases v with
    | none => rfl
    | some j =>
      cases j with
      | arr items => exact absurd rfl (hv items)
      | null => rfl
      | bool b => rfl
      | num q => rfl
      | str s => rfl
      | obj fields => rfl
  · intro v t ht
    cases v with
    | none => simp [parse_tags] at ht
    | some j =>
      cases j with
      | arr items =>
        simp only [parse_tags, List.mem_filterMap] at ht
        obtain ⟨item, hmem, hitem⟩ := ht
        cases item with
        | str s =>
          by_cases hs : pyStrip s = ""
          · simp [hs] at hitem
          · simp [hs] at hitem
            rw [← hitem]
            exact hs
        | null => simp at hitem
        | bool b => simp at hitem
        | num q => simp at hitem
        | arr xs => simp at hitem
        | obj fs => simp at hitem
      | null => simp [parse_tags] at ht
      | bool b => simp [parse_tags] at ht
      | num q => simp [parse_tags] at ht
      | str s => simp [parse_tags] at ht
      | obj fields => simp [parse_tags] at ht

/-- A concrete curated JSONL file: a blank line, a good record without id, a
malformed line, a non-object record, a record missing its question, and a
full record. -/
def witness_lines : List RawLine :=
  [.blank,
   .parsed (.obj [("question", .str " What does he do? "), ("expected_behavior", .str "maybe"),
                  ("tags", .num 3)]),
   .malformed,
   .parsed (.num 3),
   .parsed (.obj [("id", .str "x1"), ("category", .str "work")]),
   .parsed (.obj [("id", .str "g6"), ("question", .str "Q6"), ("reference_answer", .str "A"),
                  ("expected_behavior", .str "refuse"), ("tags", .arr [.str " kw:acme ", .str "  ", .num 1])])]

/-- The case line 2 of `witness_lines` produces: synthesized id, default
category and behavior, no tags. -/
def witness_line2_case : EvalCase :=
  { case_id := "golden-2", dataset := "golden", category := "general",
    question := "What does he do?", reference_answer := "",
    expected_behavior := .answer, tags := [] }

/-- Witness for `load_eval_jsonl_spec`: the good second line of the concrete
file (surrounded by a blank, a malformed, a non-object and a
missing-question line) still yields its case in the loaded list. -/
theorem load_eval_jsonl_spec_witness :
    case_of_line "golden" (1 + 1) (witness_lines.get ⟨1, by decide⟩) = some witness_line2_case
    ∧ witness_line2_case ∈ load_eval_jsonl "golden" witness_lines :=
  ⟨by decide,
   (load_eval_jsonl_spec "golden" witness_lines).2.1 1 (by decide) witness_line2_case (by decide)⟩

/-- Extracting the `j`-th element in front of the remainder is a permutation. -/
theorem getD_cons_eraseIdx_perm : ∀ (l : List Nat) (j : Nat), j < l.length →
    List.Perm (l.getD j 0 :: l.eraseIdx j) l := by
  intro l
  induction l with
  | nil => intro j hj; simp at hj
  | cons a t ih =>
    intro j hj
    cases j with
    | zero =>
      simp only [List.getD_cons_zero, List.eraseIdx_cons_zero]
      exact List.Perm.refl _
    | succ j2 =>
      have hj2 : j2 < t.length := by simpa using hj
      simp only [List.getD_cons_succ, List.eraseIdx_cons_succ]
      exact (List.Perm.swap a (t.getD j2 0) (t.eraseIdx j2)).trans ((ih j2 hj2).cons a)

/-- The fuelled shuffle permutes its input when the fuel covers the length. -/
theorem shuffle_fuel_perm : ∀ (fuel s : Nat) (pending : List Nat),
    pending.length ≤ fuel → List.Perm (shuffle_fuel fuel s pending) pending := by
  intro fuel
  induction fuel with
  | zero =>
    intro s pending h
    have hnil : pending = [] := List.length_eq_zero.mp (Nat.le_zero.mp h)
    subst hnil
    exact List.Perm.nil
  | succ fuel ih =>
    intro s pending h
    by_cases hp : 0 < pending.length
    · simp only [shuffle_fuel, if_pos hp]
      have hj : s % pending.length < pending.length := Nat.mod_lt _ hp
      have hlen : (pending.eraseIdx (s % pending.length)).length ≤ fuel := by
        rw [List.length_eraseIdx_of_lt hj]
        omega
      exact ((ih (lcg_next s) _ hlen).cons _).trans (getD_cons_eraseIdx_perm pending _ hj)
    · simp only [shuffle_fuel, if_neg hp]
      have hnil : pending = [] := by
        cases pending with
        | nil => rfl
        | cons a t => simp at hp
      subst hnil
      exact List.Perm.nil

/-- The modelled Python shuffle is a permutation of its input. -/
theorem py_shuffle_perm (seed : Nat) (xs : List Nat) :
    List.Perm (py_shuffle seed xs) xs :=
  shuffle_fuel_perm xs.length (lcg_next seed) xs Nat.le.refl

/-- Indexing a cons cell with positive indices shifts to the tail. -/
theorem filterMap_getElem_cons_shift {α : Type} (a : α) (l : List α) :
    ∀ is2 : List Nat, (∀ i ∈ is2, 0 < i) →
    is2.filterMap (fun i => (a :: l)[i]?)
      = (is2.map (fun i => i - 1)).filterMap (fun i => l[i]?) := by
  intro is2
  induction is2 with
  | nil => intro _; rfl
  | cons i t ih =>
    intro h
    have hi : 0 < i := h i (List.mem_cons_self i t)
    obtain ⟨i2, rfl⟩ : ∃ i2, i = i2 + 1 := ⟨i - 1, by omega⟩
    have ht : ∀ x ∈ t, 0 < x := fun x hx => h x (List.mem_cons_of_mem _ hx)
    simp only [List.filterMap_cons, List.map_cons, List.getElem?_cons_succ, ih ht,
      Nat.add_sub_cancel]

/-- Indexing a list at a strictly increasing index list is a sublist: the
selected entries appear in original relative order. -/
theorem filterMap_getElem_sublist {α : Type} :
    ∀ (l : List α) (is2 : List Nat), is2.Pairwise (· < ·) →
    List.Sublist (is2.filterMap (fun i => l[i]?)) l := by
  intro l
  induction l with
  | nil =>
    intro is2 _
    have hnil : is2.filterMap (fun i => ([] : List α)[i]?) = [] := by simp
    rw [hnil]
  | cons a l ih =>
    intro is2 hp
    cases is2 with
    | nil => exact List.nil_sublist _
    | cons i t =>
      have hpt : t.Pairwise (· < ·) := (List.pairwise_cons.mp hp).2
      have hit : ∀ x ∈ t, i < x := (List.pairwise_cons.mp hp).1
      rcases Nat.eq_zero_or_pos i with hi | hi
      · subst hi
        have ht : ∀ x ∈ t, 0 < x := fun x hx => Nat.lt_of_le_of_lt (Nat.zero_le _) (hit x hx)
        rw [List.filterMap_cons]
        simp only [List.getElem?_cons_zero]
        rw [filterMap_getElem_cons_shift a l t ht]
        refine List.Sublist.cons₂ a (ih _ ?_)
        rw [List.pairwise_map]
        refine hpt.imp_of_mem ?_
        intro x y hx hy hxy
        have hx0 : 0 < x := ht x hx
        omega
      · have hall : ∀ x ∈ i :: t, 0 < x := by
          intro x hx
          rcases List.mem_cons.mp hx with rfl | hx2
          · exact hi
          · exact Nat.lt_trans hi (hit x hx2)
        rw [filterMap_getElem_cons_shift a l (i :: t) hall]
        refine List.Sublist.cons a (ih _ ?_)
        rw [List.pairwise_map]
        refine hp.imp_of_mem ?_
        intro x y hx hy hxy
        have hx0 : 0 < x := hall x hx
        omega

/-- When every index is in range, indexing drops nothing. -/
theorem filterMap_getElem_length {α : Type} (l : List α) :
    ∀ is2 : List Nat, (∀ i ∈ is2, i < l.length) →
    (is2.filterMap (fun i => l[i]?)).length = is2.length := by
  intro is2
  induction is2 with
  | nil => intro _; rfl
  | cons i t ih =>
    intro h
    rw [List.filterMap_cons, List.getElem?_eq_getElem (h i (List.mem_cons_self i t))]
    simp [ih (fun x hx => h x (List.mem_cons_of_mem _ hx))]

/-- C1: `deterministic_sample` returns the whole input unchanged when
`limit <= 0` or `len(items) <= limit`; its output is always a subsequence of
the input in original relative order (the randomly selected indices are
re-sorted ascending before indexing); and for `0 < limit < len(items)` it
returns exactly `limit` items.  Determinism — the same `(items, limit, seed)`
triple giving the same subset — is inherent to the embedding, which is a
pure function of those three arguments. -/
theorem deterministic_sample_spec (items : List EvalCase) (limit : Int) (seed : Nat) :
    (limit ≤ 0 ∨ (items.length : Int) ≤ limit → deterministic_sample items limit seed = items)
    ∧ List.Sublist (deterministic_sample items limit seed) items
    ∧ (0 < limit → limit < (items.length : Int) →
        (deterministic_sample items limit seed).length = limit.toNat) := by
  refine ⟨?_, ?_, ?_⟩
  · intro h
    simp only [deterministic_sample, if_pos h]
  · by_cases h : limit ≤ 0 ∨ (items.length : Int) ≤ limit
    · simp only [deterministic_sample, if_pos h]
      exact List.Sublist.refl items
    · simp only [deterministic_sample, if_neg h]
      apply filterMap_getElem_sublist
      have hperm := py_shuffle_perm seed (List.range items.length)
      have hnodup : (py_shuffle seed (List.range items.length)).Nodup :=
        hperm.nodup_iff.mpr (List.nodup_range _)
      have hnodup_take : ((py_shuffle seed (List.range items.length)).take limit.toNat).Nodup :=
        hnodup.sublist (List.take_sublist _ _)
      have hsorted := List.sorted_insertionSort (· ≤ ·)
        ((py_shuffle seed (List.range items.length)).take limit.toNat)
      have hnodup_sort :
          (((py_shuffle seed (List.range items.length)).take limit.toNat).insertionSort
            (· ≤ ·)).Nodup :=
        (List.perm_insertionSort _ _).nodup_iff.mpr hnodup_take
      exact hsorted.lt_of_le hnodup_sort
  · intro h1 h2
    have hcond : ¬(limit ≤ 0 ∨ (items.length : Int) ≤ limit) := by
      push_neg
      exact ⟨h1, h2⟩
    simp only [deterministic_sample, if_neg hcond]
    have hshuffle_len : (py_shuffle seed (List.range items.length)).length = items.length :=
      (py_shuffle_perm _ _).length_eq.trans (List.length_range _)
    have hbound : ∀ i ∈ ((py_shuffle seed (List.range items.length)).take
        limit.toNat).insertionSort (· ≤ ·), i < items.length := by
      intro i hi
      have h3 : i ∈ (py_shuffle seed (List.range items.length)).take limit.toNat :=
        (List.perm_insertionSort (· ≤ ·) _).mem_iff.mp hi
      have h4 : i ∈ py_shuffle seed (List.range items.length) :=
        (List.take_sublist _ _).subset h3
      exact List.mem_range.mp ((py_shuffle_perm seed _).mem_iff.mp h4)
    rw [filterMap_getElem_length items _ hbound, (List.perm_insertionSort _ _).length_eq,
      List.length_take, hshuffle_len]
    omega

/-- A minimal concrete case for the sampler witness. -/
def sample_case (n : Nat) : EvalCase :=
  { case_id := toString n, dataset := "golden", category := "general", question := "q",
    reference_answer := "", expected_behavior := .answer, tags := [] }

/-- Four concrete items to sample from. -/
def sample_items : List EvalCase :=
  [sample_case 0, sample_case 1, sample_case 2, sample_case 3]

/-- Witness for `deterministic_sample_spec`: limit 0 returns the four items
unchanged; limit 2 returns exactly two of them. -/
theorem deterministic_sample_spec_witness :
    deterministic_sample sample_items 0 7 = sample_items
    ∧ (deterministic_sample sample_items 2 7).length = 2 :=
  ⟨(deterministic_sample_spec sample_items 0 7).1 (Or.inl (by decide)),
   (deterministic_sample_spec sample_items 2 7).2.2 (by decide) (by decide)⟩

/-- A conversational row with one user and one assistant message. -/
def vrow (q a : String) : List (String × Json) :=
  [("messages", .arr [.obj [("role", .str "user"), ("content", .str q)],
                      .obj [("role", .str "assistant"), ("content", .str a)]])]

/-- Three concrete validation rows. -/
def vrows3 : List (List (String × Json)) := [vrow "q0" "a0", vrow "q1" "a1", vrow "q2" "a2"]

/-- C2 counterexample: at 3 rows, limit 2, seed 7 the validation loader's
selected row indices are `[2, 1]` — taken in shuffled order, *not* re-sorted
ascending — and the returned held-out cases appear in that non-ascending
row order (`validation-2` before `validation-1`). -/
theorem load_validation_not_resorted :
    validation_selected_indices 3 2 7 = [2, 1]
    ∧ ¬ List.Sorted (· ≤ ·) (validation_selected_indices 3 2 7)
    ∧ (load_validation_eval_set vrows3 2 7).map (fun c => c.case_id)
        = ["validation-2", "validation-1"] := by
  refine ⟨by decide, ?_, by decide⟩
  intro hsorted
  have h21 : (2 : Nat) ≤ 1 := by
    have hs : List.Sorted (· ≤ ·) [2, 1] := by
      rw [show validation_selected_indices 3 2 7 = [2, 1] from by decide] at hsorted
      exact hsorted
    exact (List.sorted_cons.mp hs).1 1 (by simp)
  omega

/-- C2 amended: the validation loader samples *without* re-sorting: for a
positive limit the selected row indices are the first `limit` entries of the
seeded permutation of row positions, kept in shuffled order; they are
pairwise distinct and in range, and the returned cases are built from
exactly those rows in that order (rows without a user question dropped),
each carrying `validation-<row index>` as its id. -/
theorem load_validation_eval_set_spec (rows : List (List (String × Json)))
    (limit : Int) (seed : Nat) (hpos : 0 < limit) (hrows : rows ≠ []) :
    validation_selected_indices rows.length limit seed
      = (py_shuffle seed (List.range rows.length)).take limit.toNat
    ∧ (validation_selected_indices rows.length limit seed).Nodup
    ∧ (∀ i ∈ validation_selected_indices rows.length limit seed, i < rows.length)
    ∧ load_validation_eval_set rows limit seed
        = (validation_selected_indices rows.length limit seed).filterMap (validation_case rows)
    ∧ (∀ (i : Nat) (c : EvalCase), validation_case rows i = some c →
        c.case_id = "validation-" ++ toString i) := by
  have hsel : validation_selected_indices rows.length limit seed
      = (py_shuffle seed (List.range rows.length)).take limit.toNat := by
    simp only [validation_selected_indices, if_pos hpos]
  have hnodup : (py_shuffle seed (List.range rows.length)).Nodup :=
    (py_shuffle_perm seed _).nodup_iff.mpr (List.nodup_range _)
  refine ⟨hsel, ?_, ?_, ?_, ?_⟩
  · rw [hsel]
    exact hnodup.sublist (List.take_sublist _ _)
  · intro i hi
    rw [hsel] at hi
    have h4 : i ∈ py_shuffle seed (List.range rows.length) :=
      (List.take_sublist _ _).subset hi
    exact List.mem_range.mp ((py_shuffle_perm seed _).mem_iff.mp h4)
  · have hne : rows.length ≠ 0 := fun h0 => hrows (List.length_eq_zero.mp h0)
    simp only [load_validation_eval_set, if_neg hne]
  · intro i c hc
    simp only [validation_case] at hc
    rcases hrow : rows[i]? with _ | row
    · simp only [hrow] at hc
      exact Option.noConfusion hc
    · simp only [hrow] at hc
      by_cases hq : extract_role_content (jget row "messages") "user" = ""
      · rw [if_pos hq] at hc
        exact absurd hc (by simp)
      · rw [if_neg hq] at hc
        injection hc with h2
        rw [← h2]

/-- Witness for `load_validation_eval_set_spec` at the three concrete rows,
limit 2, seed 7. -/
theorem load_validation_eval_set_spec_witness :
    validation_selected_indices vrows3.length 2 7
      = (py_shuffle 7 (List.range vrows3.length)).take (2 : Int).toNat
    ∧ load_validation_eval_set vrows3 2 7
        = (validation_selected_indices vrows3.length 2 7).filterMap (validation_case vrows3) :=
  ⟨(load_validation_eval_set_spec vrows3 2 7 (by decide) (by simp [vrows3])).1,
   (load_validation_eval_set_spec vrows3 2 7 (by decide) (by simp [vrows3])).2.2.2.1⟩

/-- C9: the comparator is total and partial-tolerant: with no baseline it
yields no deltas; an entry appears in the comparison exactly for a model
present in both sides whose delta map is nonempty (keyed by model file); and
a metric/delta pair appears for a model exactly when the metric is tracked
and both the serialized current value and the baseline value are numeric —
the delta being the signed difference current − baseline — so absent models
and absent or non-numeric metrics are silently omitted, never an error. -/
theorem compute_comparison_spec (summaries : List (String × ModelSummary))
    (baseline : List (String × Json)) :
    compute_comparison summaries none = []
    ∧ (∀ e : String × List (String × ℚ),
        e ∈ compute_comparison summaries (some baseline) ↔
          ∃ s : ModelSummary, (e.1, s) ∈ summaries
            ∧ ∃ payload : Json, jget baseline e.1 = some payload
              ∧ model_deltas payload s = e.2 ∧ e.2 ≠ [])
    ∧ (∀ (payload : Json) (s : ModelSummary) (metric : String) (d : ℚ),
        (metric, d) ∈ model_deltas payload s ↔
          metric ∈ tracked_metrics
          ∧ ∃ cv bv : ℚ, (jget (serialize_metrics s) metric).bind py_num = some cv
              ∧ extract_baseline_metric payload metric = some bv
              ∧ d = cv - bv) := by
  refine ⟨rfl, ?_, ?_⟩
  · intro e
    constructor
    · intro he
      simp only [compute_comparison] at he
      obtain ⟨entry, hmem, hg⟩ := List.mem_filterMap.mp he
      rcases entry with ⟨mf, s⟩
      rcases hp : jget baseline mf with _ | payload
      · simp only [hp] at hg
        exact Option.noConfusion hg
      · simp only [hp] at hg
        by_cases hd : model_deltas payload s ≠ []
        · rw [if_pos hd] at hg
          injection hg with hg2
          subst hg2
          exact ⟨s, hmem, payload, hp, rfl, hd⟩
        · rw [if_neg hd] at hg
          exact Option.noConfusion hg
    · intro ⟨s, hmem, payload, hp, hmd, hne⟩
      simp only [compute_comparison]
      refine List.mem_filterMap.mpr ⟨(e.1, s), hmem, ?_⟩
      simp only [hp]
      rw [hmd, if_pos hne]
  · intro payload s metric d
    constructor
    · intro hm
      obtain ⟨m, hmem, hf⟩ := List.mem_filterMap.mp hm
      rcases hc : (jget (serialize_metrics s) m).bind py_num with _ | cv
      · simp only [hc] at hf
        exact Option.noConfusion hf
      · rcases hb : extract_baseline_metric payload m with _ | bv
        · simp only [hc, hb] at hf
          exact Option.noConfusion hf
        · simp only [hc, hb, Option.some.injEq, Prod.mk.injEq] at hf
          obtain ⟨h1, h2⟩ := hf
          subst h1
          exact ⟨hmem, cv, bv, hc, hb, h2.symm⟩
    · intro ⟨hmem, cv, bv, hc, hb, hd⟩
      refine List.mem_filterMap.mpr ⟨metric, hmem, ?_⟩
      simp only [hc, hb, hd]
